import Mathlib

/-!
Verification of the FreePeak/cortex MCP server core: a shallow embedding of
the tool/provider registry (`pkg/plugin/registry.go`), the in-memory
repositories and server service (`internal/infrastructure/server`,
`internal/usecases`), the public `MCPServer` facade (`pkg/server/server.go`)
and the stdio JSON-RPC message processor
(`internal/interfaces/stdio`), together with theorems settling the spec's
claims about them.

Go maps are embedded as association lists with Go-map semantics:
`mapInsert` replaces the binding when the key is present (as `m[k] = v`
does), `mapLookup` finds the binding (as `v, ok := m[k]`), and `mapErase`
removes it (as `delete(m, k)`). A Go map never holds two bindings for one
key; where a theorem needs that invariant on an arbitrary state it takes a
`Nodup` hypothesis on the key list.
-/

namespace Cortex

/-- Go-map lookup `v, ok := m[k]` over the association-list embedding. -/
def mapLookup {α : Type} (m : List (String × α)) (k : String) : Option α :=
  match m with
  | [] => none
  | (k', v) :: rest => if k' = k then some v else mapLookup rest k

/-- Go-map assignment `m[k] = v`: replaces the binding when present,
appends it otherwise. -/
def mapInsert {α : Type} (m : List (String × α)) (k : String) (v : α) :
    List (String × α) :=
  match m with
  | [] => [(k, v)]
  | (k', v') :: rest =>
      if k' = k then (k, v) :: rest else (k', v') :: mapInsert rest k v

/-- Go-map deletion `delete(m, k)`. -/
def mapErase {α : Type} (m : List (String × α)) (k : String) :
    List (String × α) :=
  m.filter (fun e => e.1 ≠ k)

/-! ### Tool descriptor model (`pkg/types`, `internal/domain`) -/

/-- `types.ToolParameter` / `domain.ToolParameter`: one declared parameter of
a tool. The `Items` schema field is an opaque payload irrelevant to every
claim and is embedded as a string tag. -/
structure ToolParameter where
  name : String
  description : String
  ptype : String
  required : Bool
  deriving DecidableEq, Repr

/-- `types.Tool` / `domain.Tool`: a named callable operation. -/
structure Tool where
  name : String
  description : String
  parameters : List ToolParameter
  deriving DecidableEq, Repr

/-- `plugin.ProviderInfo`: metadata identifying a provider. -/
structure ProviderInfo where
  id : String
  pname : String
  version : String
  description : String
  deriving DecidableEq, Repr

/-- `types.ClientSession` / `domain.ClientSession`. -/
structure ClientSession where
  id : String
  userAgent : String
  connected : Bool
  deriving DecidableEq, Repr

/-- A `plugin.Provider` (Go interface) is embedded by the results of its
three methods; `GetProviderInfo` and `GetTools` may fail, embedded as
`Except`. Tool execution results are irrelevant to the claims and kept
abstract as a result string. -/
structure Provider where
  getProviderInfo : Except String ProviderInfo
  getTools : Except String (List Tool)
  executeTool : String → List (String × String) → Except String String

/-! ### Plugin registry (`pkg/plugin/registry.go`) -/

/-- `plugin.DefaultRegistry`: registered providers by ID, and the reverse
index from tool name to owning provider ID (`toolMap`). -/
structure DefaultRegistry where
  providers : List (String × Provider)
  toolMap : List (String × String)

namespace DefaultRegistry

/-- The tool-registration loop at the end of
`DefaultRegistry.RegisterProvider`: for each tool, skip an empty name,
skip a name already claimed in the reverse index (first registrant wins),
otherwise map the name to the registering provider's ID. -/
def registerTools (toolMap : List (String × String)) (providerID : String)
    (tools : List Tool) : List (String × String) :=
  tools.foldl
    (fun m t =>
      if t.name = "" then m
      else if (mapLookup m t.name).isSome then m
      else mapInsert m t.name providerID)
    toolMap

/-- `DefaultRegistry.RegisterProvider`. The Go method mutates the receiver
and returns an error; the embedding returns the post-state together with
the error (`none` = nil error). A nil provider argument is `Option.none`. -/
def RegisterProvider (r : DefaultRegistry) (provider : Option Provider) :
    DefaultRegistry × Option String :=
  match provider with
  | none => (r, some "provider cannot be nil")
  | some p =>
    match p.getProviderInfo with
    | .error e => (r, some ("failed to get provider info: " ++ e))
    | .ok info =>
      if info.id = "" then (r, some "provider ID cannot be empty")
      else if (mapLookup r.providers info.id).isSome then
        (r, some ("provider with ID " ++ info.id ++ " is already registered"))
      else
        let providers := mapInsert r.providers info.id p
        match p.getTools with
        | .error _ =>
            -- provider stays registered; the error is only logged
            ({ providers := providers, toolMap := r.toolMap }, none)
        | .ok tools =>
            ({ providers := providers,
               toolMap := registerTools r.toolMap info.id tools }, none)

/-- `DefaultRegistry.UnregisterProvider`: collect the reverse-index keys
owned by the provider, delete them, then delete the provider record. -/
def UnregisterProvider (r : DefaultRegistry) (providerID : String) :
    DefaultRegistry × Option String :=
  match mapLookup r.providers providerID with
  | none =>
      (r, some ("provider with ID " ++ providerID ++ " is not registered"))
  | some _ =>
      let toolsToRemove :=
        (r.toolMap.filter (fun e => e.2 = providerID)).map Prod.fst
      let toolMap := toolsToRemove.foldl (fun m n => mapErase m n) r.toolMap
      ({ providers := mapErase r.providers providerID, toolMap := toolMap },
        none)

/-- `DefaultRegistry.GetTool`: reverse-index lookup, provider lookup,
re-fetch of the provider's current tool list, then a scan for the name. -/
def GetTool (r : DefaultRegistry) (toolName : String) :
    Except String (Tool × Provider) :=
  match mapLookup r.toolMap toolName with
  | none => .error ("tool " ++ toolName ++ " is not registered")
  | some providerID =>
    match mapLookup r.providers providerID with
    | none =>
        .error ("provider for tool " ++ toolName ++ " is no longer registered")
    | some provider =>
      match provider.getTools with
      | .error e =>
          .error ("failed to get tools from provider " ++ providerID ++ ": "
            ++ e)
      | .ok tools =>
        match tools.find? (fun t => t.name = toolName) with
        | some t => .ok (t, provider)
        | none =>
            .error ("tool " ++ toolName ++ " is no longer provided by provider "
              ++ providerID)

end DefaultRegistry

/-! ### Domain data (`internal/domain`) -/

/-- `domain.Resource`: a resource identified by its URI. -/
structure Resource where
  uri : String
  rname : String
  description : String
  mimeType : String
  deriving DecidableEq, Repr

/-- `domain.Prompt`: a named prompt template. -/
structure Prompt where
  name : String
  description : String
  deriving DecidableEq, Repr

/-- `domain.Notification`: a one-way event with a method name and an opaque
parameter payload (always the empty map in the notify helpers). -/
structure Notification where
  method : String
  params : List (String × String)
  deriving DecidableEq, Repr

/-! ### In-memory repositories
(`internal/infrastructure/server`, embedded from `src/unnamed/part_009`).
Each `sync.Map` is an association list; `Store` is `mapInsert`, `Load` is
`mapLookup`, `Delete` is `mapErase`. Errors are `Option String`
(`none` = nil). -/

namespace InMemoryToolRepository

/-- `InMemoryToolRepository.AddTool`: stores the tool under its original
name and always returns nil — an existing entry is silently replaced. -/
def AddTool (tools : List (String × Tool)) (t : Tool) :
    List (String × Tool) × Option String :=
  (mapInsert tools t.name t, none)

/-- `InMemoryToolRepository.GetTool`. -/
def GetTool (tools : List (String × Tool)) (name : String) :
    Except String Tool :=
  match mapLookup tools name with
  | some t => .ok t
  | none => .error ("tool not found: " ++ name)

/-- `InMemoryToolRepository.DeleteTool`: not-found is an error. -/
def DeleteTool (tools : List (String × Tool)) (name : String) :
    List (String × Tool) × Option String :=
  match mapLookup tools name with
  | none => (tools, some ("tool not found: " ++ name))
  | some _ => (mapErase tools name, none)

end InMemoryToolRepository

namespace InMemoryResourceRepository

/-- `InMemoryResourceRepository.AddResource`: stores by URI, never fails. -/
def AddResource (resources : List (String × Resource)) (r : Resource) :
    List (String × Resource) × Option String :=
  (mapInsert resources r.uri r, none)

/-- `InMemoryResourceRepository.DeleteResource`: not-found is an error. -/
def DeleteResource (resources : List (String × Resource)) (uri : String) :
    List (String × Resource) × Option String :=
  match mapLookup resources uri with
  | none => (resources, some ("resource not found: " ++ uri))
  | some _ => (mapErase resources uri, none)

end InMemoryResourceRepository

namespace InMemoryPromptRepository

/-- `InMemoryPromptRepository.AddPrompt`: stores by name, never fails. -/
def AddPrompt (prompts : List (String × Prompt)) (p : Prompt) :
    List (String × Prompt) × Option String :=
  (mapInsert prompts p.name p, none)

/-- `InMemoryPromptRepository.DeletePrompt`: not-found is an error. -/
def DeletePrompt (prompts : List (String × Prompt)) (name : String) :
    List (String × Prompt) × Option String :=
  match mapLookup prompts name with
  | none => (prompts, some ("prompt not found: " ++ name))
  | some _ => (mapErase prompts name, none)

end InMemoryPromptRepository

/-! ### Server service (`internal/usecases`, `src/unnamed/part_008`)

The service is generic in the handler type `H` (Go `ToolHandlerFunc`
values are functions and carry no decidable equality). Its repositories
are the in-memory ones wired in by `builder.NewServerBuilder`; the
notification sender (`BroadcastNotification`) is embedded as the
`broadcast` field. Mutating methods return
`(error, new state, notification trace)` where the trace records each
notification handed to the sender together with the sender's discarded
result. -/

structure ServerService (H : Type) where
  sname : String
  version : String
  instructions : String
  toolHandlers : List (String × H)
  resourceRepo : List (String × Resource)
  toolRepo : List (String × Tool)
  promptRepo : List (String × Prompt)
  sessionRepo : List (String × ClientSession)
  broadcast : Notification → Except String Unit

namespace ServerService

variable {H : Type}

/-- `ServerService.RegisterToolHandler`: register under the original name;
also register under the platform-prefixed name unless that name already
has a handler. -/
def RegisterToolHandler (s : ServerService H) (name : String) (handler : H) :
    ServerService H :=
  let m := mapInsert s.toolHandlers name handler
  let prefixedName := "cortex_" ++ name
  if (mapLookup m prefixedName).isSome then { s with toolHandlers := m }
  else { s with toolHandlers := mapInsert m prefixedName handler }

/-- `ServerService.GetToolHandler`: exact name, then the name with the
`cortex_` platform marker stripped, then the name with it prepended.
Go measures `len(name) > 7` in bytes and compares `name[:7]`; since the
marker is ASCII, the character-based embedding agrees with it. -/
def GetToolHandler (s : ServerService H) (name : String) : Option H :=
  match mapLookup s.toolHandlers name with
  | some handler => some handler
  | none =>
    if name.length > 7 ∧ name.take 7 = "cortex_" then
      match mapLookup s.toolHandlers (name.drop 7) with
      | some handler => some handler
      | none => mapLookup s.toolHandlers ("cortex_" ++ name)
    else mapLookup s.toolHandlers ("cortex_" ++ name)

/-- `ServerService.notifyResourceListChanged`: builds the fixed
notification and hands it to the sender, discarding the send result. -/
def notifyResourceListChanged (s : ServerService H) :
    Notification × Except String Unit :=
  let n : Notification := { method := "resources/list/changed", params := [] }
  (n, s.broadcast n)

/-- `ServerService.notifyToolListChanged`. -/
def notifyToolListChanged (s : ServerService H) :
    Notification × Except String Unit :=
  let n : Notification := { method := "tools/list/changed", params := [] }
  (n, s.broadcast n)

/-- `ServerService.notifyPromptListChanged`. -/
def notifyPromptListChanged (s : ServerService H) :
    Notification × Except String Unit :=
  let n : Notification := { method := "prompts/list/changed", params := [] }
  (n, s.broadcast n)

/-- `ServerService.AddTool`: repository add, with the deferred
list-changed notification attempted afterwards. -/
def AddTool (s : ServerService H) (t : Tool) :
    Option String × ServerService H × List (Notification × Except String Unit) :=
  let r := InMemoryToolRepository.AddTool s.toolRepo t
  (r.2, { s with toolRepo := r.1 }, [notifyToolListChanged s])

/-- `ServerService.DeleteTool`. -/
def DeleteTool (s : ServerService H) (name : String) :
    Option String × ServerService H × List (Notification × Except String Unit) :=
  let r := InMemoryToolRepository.DeleteTool s.toolRepo name
  (r.2, { s with toolRepo := r.1 }, [notifyToolListChanged s])

/-- `ServerService.AddResource`. -/
def AddResource (s : ServerService H) (res : Resource) :
    Option String × ServerService H × List (Notification × Except String Unit) :=
  let r := InMemoryResourceRepository.AddResource s.resourceRepo res
  (r.2, { s with resourceRepo := r.1 }, [notifyResourceListChanged s])

/-- `ServerService.DeleteResource`. -/
def DeleteResource (s : ServerService H) (uri : String) :
    Option String × ServerService H × List (Notification × Except String Unit) :=
  let r := InMemoryResourceRepository.DeleteResource s.resourceRepo uri
  (r.2, { s with resourceRepo := r.1 }, [notifyResourceListChanged s])

/-- `ServerService.AddPrompt`. -/
def AddPrompt (s : ServerService H) (p : Prompt) :
    Option String × ServerService H × List (Notification × Except String Unit) :=
  let r := InMemoryPromptRepository.AddPrompt s.promptRepo p
  (r.2, { s with promptRepo := r.1 }, [notifyPromptListChanged s])

/-- `ServerService.DeletePrompt`. -/
def DeletePrompt (s : ServerService H) (name : String) :
    Option String × ServerService H × List (Notification × Except String Unit) :=
  let r := InMemoryPromptRepository.DeletePrompt s.promptRepo name
  (r.2, { s with promptRepo := r.1 }, [notifyPromptListChanged s])

end ServerService

/-! ### Public server facade (`pkg/server/server.go`) -/

/-- `server.MCPServer`: the public facade holding its own tool and handler
maps, the plugin registry, and the builder-owned service. The builder is
embedded through the service it produces (its `AddTool` stores into the
service's tool repository). -/
structure MCPServer (H : Type) where
  tools : List (String × Tool)
  handlers : List (String × H)
  registry : DefaultRegistry
  service : ServerService H

namespace MCPServer

variable {H : Type}

/-- `MCPServer.AddTool`: nil checks, then unconditional stores into the
`tools` and `handlers` maps, `builder.AddTool` (a store into the service
tool repository), and `RegisterToolHandler` on the service. The service
adapter wrapping the handler is embedded as the handler value itself. -/
def AddTool (s : MCPServer H) (tool : Option Tool) (handler : Option H) :
    MCPServer H × Option String :=
  match tool with
  | none => (s, some "tool cannot be nil")
  | some t =>
    match handler with
    | none => (s, some "handler cannot be nil")
    | some h =>
      let svc :=
        { s.service with
            toolRepo := (InMemoryToolRepository.AddTool s.service.toolRepo t).1 }
      ({ s with
          tools := mapInsert s.tools t.name t,
          handlers := mapInsert s.handlers t.name h,
          service := ServerService.RegisterToolHandler svc t.name h }, none)

end MCPServer

/-! ### Stdio JSON-RPC message processor
(`internal/interfaces/stdio`, `src/unnamed/part_009`) -/

def JSONRPCVersion : String := "2.0"

def ParseErrorCode : Int := -32700

def InvalidParamsCode : Int := -32602

def MethodNotFoundCode : Int := -32601

def InternalErrorCode : Int := -32603

/-- A decoded JSON value (`interface{}` after `json.Unmarshal`). A nil
interface value is `null`. -/
inductive JValue where
  | null
  | bool (b : Bool)
  | num (n : Int)
  | str (s : String)
  | arr (elems : List JValue)
  | obj (fields : List (String × JValue))

/-- Go type assertion `v.(map[string]interface{})`. -/
def JValue.asObj : JValue → Option (List (String × JValue))
  | .obj fields => some fields
  | _ => none

/-- Go type assertion `v.(string)`. -/
def JValue.asStr : JValue → Option String
  | .str s => some s
  | _ => none

/-- Go nil-interface test `v == nil` on a decoded value. -/
def JValue.isNull : JValue → Bool
  | .null => true
  | _ => false

/-- `paramsMap[key].(string)`: a missing key yields a nil interface, whose
string assertion fails. -/
def stringField (fields : List (String × JValue)) (key : String) :
    Option String :=
  (mapLookup fields key).bind JValue.asStr

/-- `paramsMap[key].(map[string]interface{})`. -/
def objectField (fields : List (String × JValue)) (key : String) :
    Option (List (String × JValue)) :=
  (mapLookup fields key).bind JValue.asObj

/-- `domain.JSONRPCError`. -/
structure JSONRPCError where
  code : Int
  message : String
  data : Option JValue

/-- The anonymous struct `Process` unmarshals each message into. Absent
`id` or `params` decode to nil, embedded as `JValue.null`. -/
structure BaseMessage where
  jsonrpc : String
  id : JValue
  method : String
  params : JValue

/-- `stdio.MethodHandler.Handle`: params and id to a result
(nil allowed) or a JSON-RPC error. -/
def MethodHandler : Type :=
  JValue → JValue → Except JSONRPCError (Option JValue)

/-- `stdio.createSuccessResponse`: a nil result is normalized to an empty
object. -/
def createSuccessResponse (id : JValue) (result : Option JValue) : JValue :=
  .obj [("jsonrpc", .str JSONRPCVersion), ("id", id),
        ("result", result.getD (.obj []))]

/-- `stdio.createErrorResponse`. -/
def createErrorResponse (id : JValue) (code : Int) (message : String) :
    JValue :=
  .obj [("jsonrpc", .str JSONRPCVersion), ("id", id),
        ("error", .obj [("code", .num code), ("message", .str message)])]

/-- `stdio.createErrorResponseFromJSONRPCError`. -/
def createErrorResponseFromJSONRPCError (id : JValue) (e : JSONRPCError) :
    JValue :=
  .obj [("jsonrpc", .str JSONRPCVersion), ("id", id),
        ("error", .obj [("code", .num e.code), ("message", .str e.message),
                        ("data", e.data.getD .null)])]

/-- `strings.TrimSpace`: drop leading and trailing whitespace. -/
def trimSpace (s : String) : String :=
  ⟨((s.data.dropWhile Char.isWhitespace).reverse.dropWhile
      Char.isWhitespace).reverse⟩

/-- `strings.HasPrefix`: Go compares the leading bytes; over the ASCII
marker `"notifications/"` used here this agrees with the character-list
comparison. -/
def goStartsWith (s pre : String) : Bool :=
  pre.data.isPrefixOf s.data

/-- `stdio.MessageProcessor.Process`: trim, parse (`json.Unmarshal` is
embedded as the `parse` argument; `none` is a parse failure), notification
short-circuits, dispatch-table lookup, handler execution. The second
component is the Go error returned to the read loop, which is nil on every
path of this method. -/
def Process (parse : String → Option BaseMessage)
    (handlers : List (String × MethodHandler)) (message : String) :
    Option JValue × Option String :=
  let msg := trimSpace message
  if msg = "" then (none, none)
  else
    match parse msg with
    | none => (some (createErrorResponse .null ParseErrorCode "Parse error"), none)
    | some m =>
      if m.id.isNull && goStartsWith m.method "notifications/" then (none, none)
      else
        match mapLookup handlers m.method with
        | none =>
          if goStartsWith m.method "notifications/" then (none, none)
          else
            (some (createErrorResponse m.id MethodNotFoundCode
              ("Method \x27" ++ m.method ++ "\x27 not found")), none)
        | some handler =>
          match handler m.params m.id with
          | .error e =>
              (some (createErrorResponseFromJSONRPCError m.id e), none)
          | .ok result => (some (createSuccessResponse m.id result), none)

/-- `usecases.ToolHandlerFunc`: tool parameters and session to a result or
an error. -/
def ToolHandlerFunc : Type :=
  List (String × JValue) → ClientSession → Except String JValue

/-- `stdio.MessageProcessor.handleToolsCall`: params must be an object
carrying a non-empty string `name`; tool parameters come from a
`parameters` object, else an `arguments` object, else the empty map; the
handler resolved through `ServerService.GetToolHandler` runs with a fresh
session (`sid` embeds the generated session ID). -/
def handleToolsCall (service : ServerService ToolHandlerFunc) (sid : String)
    (params : JValue) : Except JSONRPCError JValue :=
  match params.asObj with
  | none => .error ⟨InvalidParamsCode, "Invalid params", none⟩
  | some paramsMap =>
    match stringField paramsMap "name" with
    | none =>
        .error ⟨InvalidParamsCode,
          "Missing or invalid \x27name\x27 parameter", none⟩
    | some toolName =>
      if toolName = "" then
        .error ⟨InvalidParamsCode,
          "Missing or invalid \x27name\x27 parameter", none⟩
      else
        let toolParams :=
          match objectField paramsMap "parameters" with
          | some o => o
          | none =>
            match objectField paramsMap "arguments" with
            | some o => o
            | none => []
        let clientSession : ClientSession := ⟨sid, "", true⟩
        match ServerService.GetToolHandler service toolName with
        | some handler =>
          match handler toolParams clientSession with
          | .error e =>
              .error ⟨InternalErrorCode, "Error executing tool: " ++ e, none⟩
          | .ok result => .ok result
        | none =>
            .error ⟨InternalErrorCode,
              "Tool \x27" ++ toolName ++
                "\x27 is registered but has no implementation", none⟩

/-! ### Concrete fixtures used by witnesses -/

/-- A provider whose info always succeeds and whose live tool list is
given. -/
def sampleProvider (id : String) (tools : List Tool) : Provider :=
  { getProviderInfo := .ok ⟨id, "provider " ++ id, "1.0.0", ""⟩
    getTools := .ok tools
    executeTool := fun _ _ => .error "not implemented" }

/-- A provider whose `GetTools` fails. -/
def failingToolsProvider (id : String) : Provider :=
  { getProviderInfo := .ok ⟨id, "provider " ++ id, "1.0.0", ""⟩
    getTools := .error "tools unavailable"
    executeTool := fun _ _ => .error "not implemented" }

/-- An empty service over an arbitrary handler type. -/
def emptyService (H : Type) : ServerService H :=
  { sname := "MCP Server", version := "1.0.0", instructions := ""
    toolHandlers := [], resourceRepo := [], toolRepo := []
    promptRepo := [], sessionRepo := [], broadcast := fun _ => .ok () }

/-- A service with one handler that echoes back the parameter map it was
invoked with, to observe exactly which parameters reach a handler. -/
def recorderService (name : String) : ServerService ToolHandlerFunc :=
  { emptyService ToolHandlerFunc with
      toolHandlers := [(name, fun ps _ => .ok (.obj ps))] }

/-! ## Theorems

First the association-list lemmas matching Go-map semantics, then the
theorems settling the spec's claims. -/

theorem mapLookup_insert {α : Type} (m : List (String × α)) (k q : String)
    (v : α) :
    mapLookup (mapInsert m k v) q =
      if q = k then some v else mapLookup m q := by
  induction m with
  | nil =>
      by_cases h : q = k
      · simp [mapInsert, mapLookup, h]
      · have h' : ¬ k = q := fun hk => h hk.symm
        simp [mapInsert, mapLookup, h, h']
  | cons e rest ih =>
      obtain ⟨k₀, v₀⟩ := e
      by_cases h₀ : k₀ = k
      · subst h₀
        by_cases h₁ : q = k₀
        · subst h₁
          simp [mapInsert, mapLookup]
        · have h₁' : ¬ k₀ = q := fun hk => h₁ hk.symm
          simp [mapInsert, mapLookup, h₁, h₁']
      · by_cases h₁ : k₀ = q
        · subst h₁
          simp [mapInsert, mapLookup, h₀]
        · simp [mapInsert, mapLookup, h₀, h₁, ih]

theorem mapLookup_erase {α : Type} (m : List (String × α)) (k q : String) :
    mapLookup (mapErase m k) q =
      if q = k then none else mapLookup m q := by
  induction m with
  | nil => simp [mapErase, mapLookup]
  | cons e rest ih =>
      obtain ⟨k₀, v₀⟩ := e
      by_cases h₀ : k₀ = k
      · subst h₀
        by_cases h₁ : q = k₀
        · subst h₁
          simp_all [mapErase, mapLookup, List.filter_cons]
        · have h₁' : ¬ k₀ = q := fun h => h₁ h.symm
          simp_all [mapErase, mapLookup, List.filter_cons]
      · by_cases h₁ : k₀ = q
        · subst h₁
          simp_all [mapErase, mapLookup, List.filter_cons]
        · simp_all [mapErase, mapLookup, List.filter_cons]

theorem mapLookup_mem {α : Type} {m : List (String × α)} {k : String} {v : α}
    (h : mapLookup m k = some v) : (k, v) ∈ m := by
  induction m with
  | nil => simp [mapLookup] at h
  | cons e rest ih =>
      obtain ⟨k₀, v₀⟩ := e
      by_cases h₀ : k₀ = k
      · subst h₀
        simp [mapLookup] at h
        simp [h]
      · simp [mapLookup, h₀] at h
        exact List.mem_cons_of_mem _ (ih h)

theorem mem_mapLookup_of_nodup {α : Type} {m : List (String × α)} {k : String}
    {v : α} (hnd : (m.map Prod.fst).Nodup) (h : (k, v) ∈ m) :
    mapLookup m k = some v := by
  induction m with
  | nil => simp at h
  | cons e rest ih =>
      obtain ⟨k₀, v₀⟩ := e
      simp only [List.map_cons, List.nodup_cons] at hnd
      rcases List.mem_cons.mp h with h₁ | h₁
      · rw [Prod.mk.injEq] at h₁
        obtain ⟨hk, hv⟩ := h₁
        simp [mapLookup, hk, hv]
      · have hk₀ : k₀ ≠ k := by
          intro hkk
          subst hkk
          exact hnd.1 (List.mem_map.mpr ⟨(k₀, v), h₁, rfl⟩)
        simp [mapLookup, hk₀]
        exact ih hnd.2 h₁

theorem mapLookup_foldl_erase {α : Type} (names : List String)
    (m : List (String × α)) (q : String) :
    mapLookup (names.foldl (fun acc n => mapErase acc n) m) q =
      if q ∈ names then none else mapLookup m q := by
  induction names generalizing m with
  | nil => simp
  | cons n rest ih =>
      simp only [List.foldl_cons]
      rw [ih]
      by_cases h : q ∈ rest
      · simp [h]
      · by_cases h₂ : q = n
        · simp [h, h₂, mapLookup_erase]
        · simp [h, h₂, mapLookup_erase]

theorem mem_map_fst_filter_snd {m : List (String × String)} {v q : String} :
    q ∈ (m.filter (fun e => e.2 = v)).map Prod.fst ↔ (q, v) ∈ m := by
  constructor
  · intro h
    rcases List.mem_map.mp h with ⟨e, he, hfst⟩
    rcases List.mem_filter.mp he with ⟨hmem, hsnd⟩
    have hv : e.2 = v := by simpa using hsnd
    have : e = (q, v) := by
      obtain ⟨a, b⟩ := e
      simp only at hfst hv
      rw [hfst, hv]
    rw [this] at hmem
    exact hmem
  · intro h
    exact List.mem_map.mpr ⟨(q, v), List.mem_filter.mpr ⟨h, by simp⟩, rfl⟩

theorem length_cortex_append (name : String) :
    ("cortex_" ++ name) ≠ name := by
  intro h
  have hlen := congrArg String.length h
  rw [String.length_append] at hlen
  have h7 : "cortex_".length = 7 := rfl
  omega

theorem registerToolHandler_toolRepo {H : Type} (s : ServerService H)
    (name : String) (h : H) :
    (ServerService.RegisterToolHandler s name h).toolRepo = s.toolRepo := by
  unfold ServerService.RegisterToolHandler
  by_cases hc : (mapLookup (mapInsert s.toolHandlers name h)
      ("cortex_" ++ name)).isSome = true
  · simp [hc]
  · simp [hc]

theorem registerToolHandler_lookup_self {H : Type} (s : ServerService H)
    (name : String) (h : H) :
    mapLookup (ServerService.RegisterToolHandler s name h).toolHandlers
      name = some h := by
  have hne : ¬ name = "cortex_" ++ name :=
    fun hcc => length_cortex_append name hcc.symm
  simp only [ServerService.RegisterToolHandler]
  by_cases hp : (mapLookup (mapInsert s.toolHandlers name h)
      ("cortex_" ++ name)).isSome = true
  · rw [if_pos hp]
    simp [mapLookup_insert]
  · rw [if_neg hp]
    simp [mapLookup_insert, hne]

theorem registerToolHandler_lookup_other {H : Type} (s : ServerService H)
    (name : String) (h : H) (n : String) (h₁ : n ≠ name)
    (h₂ : n ≠ "cortex_" ++ name) :
    mapLookup (ServerService.RegisterToolHandler s name h).toolHandlers n =
      mapLookup s.toolHandlers n := by
  simp only [ServerService.RegisterToolHandler]
  by_cases hp : (mapLookup (mapInsert s.toolHandlers name h)
      ("cortex_" ++ name)).isSome = true
  · rw [if_pos hp]
    simp [mapLookup_insert, h₁]
  · rw [if_neg hp]
    simp [mapLookup_insert, h₁, h₂]

/-- C1 (counterexample): adding a second tool under the name `echo`
returns no error and replaces the stored tool, so re-registration under
an existing name is neither rejected nor state-preserving. -/
theorem addTool_duplicate_accepted_counterexample :
    (InMemoryToolRepository.AddTool
        (InMemoryToolRepository.AddTool [] ⟨"echo", "first", []⟩).1
        ⟨"echo", "second", []⟩).2 = none ∧
    mapLookup (InMemoryToolRepository.AddTool
        (InMemoryToolRepository.AddTool [] ⟨"echo", "first", []⟩).1
        ⟨"echo", "second", []⟩).1 "echo" = some ⟨"echo", "second", []⟩ ∧
    (⟨"echo", "second", []⟩ : Tool) ≠ ⟨"echo", "first", []⟩ := by
  refine ⟨rfl, rfl, ?_⟩
  decide

/-- C1 (amended): adding a tool under an already-registered name succeeds
(nil error) and overwrites the previous registration — last write wins.
The frame is exact: the in-memory tool repository, the MCPServer tool
map, the MCPServer handler map and the service tool repository change
only at the tool's name, and the service handler map gains the new
handler under the tool's name while every name other than the tool's
name and its `cortex_`-prefixed alias keeps its binding. -/
theorem addTool_overwrites_last_write_wins {H : Type}
    (repo : List (String × Tool)) (t : Tool) (s : MCPServer H) (h : H) :
    (InMemoryToolRepository.AddTool repo t).2 = none ∧
    (∀ n, mapLookup (InMemoryToolRepository.AddTool repo t).1 n =
      if n = t.name then some t else mapLookup repo n) ∧
    (MCPServer.AddTool s (some t) (some h)).2 = none ∧
    (∀ n, mapLookup (MCPServer.AddTool s (some t) (some h)).1.tools n =
      if n = t.name then some t else mapLookup s.tools n) ∧
    (∀ n, mapLookup (MCPServer.AddTool s (some t) (some h)).1.handlers n =
      if n = t.name then some h else mapLookup s.handlers n) ∧
    (∀ n, mapLookup
        (MCPServer.AddTool s (some t) (some h)).1.service.toolRepo n =
      if n = t.name then some t else mapLookup s.service.toolRepo n) ∧
    mapLookup
      (MCPServer.AddTool s (some t) (some h)).1.service.toolHandlers
      t.name = some h ∧
    (∀ n, n ≠ t.name → n ≠ "cortex_" ++ t.name →
      mapLookup
        (MCPServer.AddTool s (some t) (some h)).1.service.toolHandlers n =
        mapLookup s.service.toolHandlers n) := by
  have hrepo :
      (MCPServer.AddTool s (some t) (some h)).1.service.toolRepo =
        mapInsert s.service.toolRepo t.name t :=
    registerToolHandler_toolRepo
      { s.service with
          toolRepo :=
            (InMemoryToolRepository.AddTool s.service.toolRepo t).1 }
      t.name h
  refine ⟨rfl, ?_, rfl, ?_, ?_, ?_, ?_, ?_⟩
  · intro n
    exact mapLookup_insert repo t.name n t
  · intro n
    exact mapLookup_insert s.tools t.name n t
  · intro n
    exact mapLookup_insert s.handlers t.name n h
  · intro n
    rw [hrepo]
    exact mapLookup_insert s.service.toolRepo t.name n t
  · exact registerToolHandler_lookup_self
      { s.service with
          toolRepo :=
            (InMemoryToolRepository.AddTool s.service.toolRepo t).1 }
      t.name h
  · intro n h₁ h₂
    exact registerToolHandler_lookup_other
      { s.service with
          toolRepo :=
            (InMemoryToolRepository.AddTool s.service.toolRepo t).1 }
      t.name h n h₁ h₂

theorem addTool_overwrites_last_write_wins_witness :
    (InMemoryToolRepository.AddTool [("echo", ⟨"echo", "first", []⟩)]
        ⟨"echo", "second", []⟩).2 = none ∧
    mapLookup (InMemoryToolRepository.AddTool
        [("echo", ⟨"echo", "first", []⟩)] ⟨"echo", "second", []⟩).1 "echo" =
      some ⟨"echo", "second", []⟩ ∧
    mapLookup (MCPServer.AddTool
        (⟨[], [("echo", 3)], ⟨[], []⟩, emptyService Nat⟩ : MCPServer Nat)
        (some ⟨"echo", "second", []⟩) (some 5)).1.handlers "echo" =
      some 5 ∧
    mapLookup (MCPServer.AddTool
        (⟨[], [("echo", 3)], ⟨[], []⟩, emptyService Nat⟩ : MCPServer Nat)
        (some ⟨"echo", "second", []⟩) (some 5)).1.service.toolHandlers
      "echo" = some 5 := by
  have h := addTool_overwrites_last_write_wins (H := Nat)
    [("echo", ⟨"echo", "first", []⟩)] ⟨"echo", "second", []⟩
    ⟨[], [("echo", 3)], ⟨[], []⟩, emptyService Nat⟩ 5
  refine ⟨h.1, ?_, ?_, h.2.2.2.2.2.2.1⟩
  · rw [h.2.1 "echo"]
    decide
  · rw [h.2.2.2.2.1 "echo"]
    decide

/-- C2: a tool name still present in the reverse index whose owning
provider's current tool list no longer contains it makes `GetTool` return
the no-longer-provided error; no tool/provider pair (hence no executor)
is returned. -/
theorem getTool_stale_entry_not_found (r : DefaultRegistry)
    (toolName providerID : String) (p : Provider) (tools : List Tool)
    (hidx : mapLookup r.toolMap toolName = some providerID)
    (hprov : mapLookup r.providers providerID = some p)
    (htools : p.getTools = .ok tools)
    (hstale : tools.find? (fun t => t.name = toolName) = none) :
    DefaultRegistry.GetTool r toolName =
      .error ("tool " ++ toolName ++ " is no longer provided by provider "
        ++ providerID) := by
  simp only [DefaultRegistry.GetTool, hidx, hprov, htools, hstale]

theorem getTool_stale_entry_not_found_witness :
    DefaultRegistry.GetTool
        ⟨[("p1", sampleProvider "p1" [])], [("t1", "p1")]⟩ "t1" =
      .error "tool t1 is no longer provided by provider p1" :=
  getTool_stale_entry_not_found
    ⟨[("p1", sampleProvider "p1" [])], [("t1", "p1")]⟩ "t1" "p1"
    (sampleProvider "p1" []) [] rfl rfl rfl rfl

/-- C4: registering a provider whose ID is already registered returns an
error and leaves the provider map and the tool reverse index exactly as
they were. -/
theorem registerProvider_duplicate_id_unchanged (r : DefaultRegistry)
    (p : Provider) (info : ProviderInfo)
    (hinfo : p.getProviderInfo = .ok info)
    (hdup : (mapLookup r.providers info.id).isSome = true) :
    (DefaultRegistry.RegisterProvider r (some p)).1 = r ∧
      (DefaultRegistry.RegisterProvider r (some p)).2.isSome = true := by
  by_cases hid : info.id = ""
  · simp [DefaultRegistry.RegisterProvider, hinfo, hid]
  · simp [DefaultRegistry.RegisterProvider, hinfo, hid, hdup]

theorem registerProvider_duplicate_id_unchanged_witness :
    (DefaultRegistry.RegisterProvider
        ⟨[("p1", sampleProvider "p1" [])], [("t1", "p1")]⟩
        (some (sampleProvider "p1" [⟨"t2", "", []⟩]))).1 =
      ⟨[("p1", sampleProvider "p1" [])], [("t1", "p1")]⟩ ∧
    (DefaultRegistry.RegisterProvider
        ⟨[("p1", sampleProvider "p1" [])], [("t1", "p1")]⟩
        (some (sampleProvider "p1" [⟨"t2", "", []⟩]))).2.isSome = true :=
  registerProvider_duplicate_id_unchanged
    ⟨[("p1", sampleProvider "p1" [])], [("t1", "p1")]⟩
    (sampleProvider "p1" [⟨"t2", "", []⟩])
    ⟨"p1", "provider p1", "1.0.0", ""⟩ rfl rfl

/-- C5: unregistering a registered provider succeeds and removes from the
reverse index exactly the names mapped to it — every other name keeps its
binding; unregistering an unknown ID returns an error and changes
nothing. -/
theorem unregisterProvider_removes_exactly_owned (r : DefaultRegistry)
    (providerID : String) (hnd : (r.toolMap.map Prod.fst).Nodup) :
    ((mapLookup r.providers providerID).isSome = true →
      (DefaultRegistry.UnregisterProvider r providerID).2 = none ∧
      ∀ n, mapLookup
          (DefaultRegistry.UnregisterProvider r providerID).1.toolMap n =
        if mapLookup r.toolMap n = some providerID then none
        else mapLookup r.toolMap n) ∧
    (mapLookup r.providers providerID = none →
      DefaultRegistry.UnregisterProvider r providerID =
        (r, some ("provider with ID " ++ providerID
          ++ " is not registered"))) := by
  constructor
  · intro hsome
    obtain ⟨p, hp⟩ := Option.isSome_iff_exists.mp hsome
    unfold DefaultRegistry.UnregisterProvider
    rw [hp]
    refine ⟨rfl, ?_⟩
    intro n
    have hfold :
        mapLookup
          (((r.toolMap.filter (fun e => e.2 = providerID)).map
              Prod.fst).foldl (fun m nm => mapErase m nm) r.toolMap) n =
          if n ∈ (r.toolMap.filter (fun e => e.2 = providerID)).map Prod.fst
          then none else mapLookup r.toolMap n :=
      mapLookup_foldl_erase _ r.toolMap n
    by_cases hmem :
        n ∈ (r.toolMap.filter (fun e => e.2 = providerID)).map Prod.fst
    · have hl : mapLookup r.toolMap n = some providerID :=
        mem_mapLookup_of_nodup hnd (mem_map_fst_filter_snd.mp hmem)
      simp only [hmem, if_pos] at hfold
      simpa [hl] using hfold
    · have hl : ¬ mapLookup r.toolMap n = some providerID := by
        intro hc
        exact hmem (mem_map_fst_filter_snd.mpr (mapLookup_mem hc))
      simp only [hmem, if_neg, not_false_iff] at hfold
      simpa [hl] using hfold
  · intro hnone
    unfold DefaultRegistry.UnregisterProvider
    rw [hnone]

theorem unregisterProvider_removes_exactly_owned_witness :
    ((DefaultRegistry.UnregisterProvider
        ⟨[("p1", sampleProvider "p1" []), ("p2", sampleProvider "p2" [])],
          [("t1", "p1"), ("t2", "p2"), ("t3", "p1")]⟩ "p1").2 = none ∧
      mapLookup (DefaultRegistry.UnregisterProvider
        ⟨[("p1", sampleProvider "p1" []), ("p2", sampleProvider "p2" [])],
          [("t1", "p1"), ("t2", "p2"), ("t3", "p1")]⟩ "p1").1.toolMap "t1" =
        none ∧
      mapLookup (DefaultRegistry.UnregisterProvider
        ⟨[("p1", sampleProvider "p1" []), ("p2", sampleProvider "p2" [])],
          [("t1", "p1"), ("t2", "p2"), ("t3", "p1")]⟩ "p1").1.toolMap "t2" =
        some "p2") := by
  have h := (unregisterProvider_removes_exactly_owned
    ⟨[("p1", sampleProvider "p1" []), ("p2", sampleProvider "p2" [])],
      [("t1", "p1"), ("t2", "p2"), ("t3", "p1")]⟩ "p1" (by decide)).1 rfl
  refine ⟨h.1, ?_, ?_⟩
  · rw [h.2 "t1"]
    decide
  · rw [h.2 "t2"]
    decide

/-- C9: a provider with a fresh ID whose `GetTools` call fails is still
registered, `RegisterProvider` returns nil, and the tool reverse index
gains no entries. -/
theorem registerProvider_tools_failure_registers (r : DefaultRegistry)
    (p : Provider) (info : ProviderInfo) (e : String)
    (hinfo : p.getProviderInfo = .ok info)
    (hid : info.id ≠ "")
    (hnew : mapLookup r.providers info.id = none)
    (hfail : p.getTools = .error e) :
    DefaultRegistry.RegisterProvider r (some p) =
      ({ providers := mapInsert r.providers info.id p,
         toolMap := r.toolMap }, none) := by
  simp [DefaultRegistry.RegisterProvider, hinfo, hid, hnew, hfail]

theorem registerProvider_tools_failure_registers_witness :
    DefaultRegistry.RegisterProvider ⟨[], []⟩
        (some (failingToolsProvider "p9")) =
      ({ providers := [("p9", failingToolsProvider "p9")], toolMap := [] },
        none) :=
  registerProvider_tools_failure_registers ⟨[], []⟩
    (failingToolsProvider "p9") ⟨"p9", "provider p9", "1.0.0", ""⟩
    "tools unavailable" rfl (by decide) rfl rfl

/-- C3: after `RegisterToolHandler name h`, looking up `name` resolves to
`h`; looking up `"cortex_" ++ name` resolves to `h` as well unless a
handler already owned the prefixed name at registration time, in which
case the prefixed name keeps its prior handler. -/
theorem registerToolHandler_resolves_both_names {H : Type}
    (s : ServerService H) (name : String) (h : H) :
    ServerService.GetToolHandler
        (ServerService.RegisterToolHandler s name h) name = some h ∧
    (mapLookup s.toolHandlers ("cortex_" ++ name) = none →
      ServerService.GetToolHandler
        (ServerService.RegisterToolHandler s name h)
        ("cortex_" ++ name) = some h) ∧
    (∀ h₀, mapLookup s.toolHandlers ("cortex_" ++ name) = some h₀ →
      ServerService.GetToolHandler
        (ServerService.RegisterToolHandler s name h)
        ("cortex_" ++ name) = some h₀) := by
  have hne : ¬ ("cortex_" ++ name) = name := length_cortex_append name
  have hname : mapLookup (mapInsert s.toolHandlers name h) name = some h := by
    rw [mapLookup_insert]
    simp
  have hpref :
      mapLookup (mapInsert s.toolHandlers name h) ("cortex_" ++ name) =
        mapLookup s.toolHandlers ("cortex_" ++ name) := by
    rw [mapLookup_insert]
    simp [hne]
  by_cases hprior :
      (mapLookup (mapInsert s.toolHandlers name h)
        ("cortex_" ++ name)).isSome = true
  · refine ⟨?_, ?_, ?_⟩
    · simp [ServerService.RegisterToolHandler, ServerService.GetToolHandler,
        hprior, hname]
    · intro hnone
      rw [hpref, hnone] at hprior
      simp at hprior
    · intro h₀ hsome
      have : mapLookup (mapInsert s.toolHandlers name h)
          ("cortex_" ++ name) = some h₀ := hpref.trans hsome
      simp [ServerService.RegisterToolHandler, ServerService.GetToolHandler,
        hprior, this]
  · have hnone :
        mapLookup (mapInsert s.toolHandlers name h) ("cortex_" ++ name) =
          none := by
      cases hm : mapLookup (mapInsert s.toolHandlers name h)
          ("cortex_" ++ name) with
      | none => rfl
      | some v => rw [hm] at hprior; simp at hprior
    refine ⟨?_, ?_, ?_⟩
    · have hname₂ :
          mapLookup (mapInsert (mapInsert s.toolHandlers name h)
            ("cortex_" ++ name) h) name = some h := by
        rw [mapLookup_insert]
        have : ¬ name = ("cortex_" ++ name) := fun hc => hne hc.symm
        simp [this, hname]
      simp [ServerService.RegisterToolHandler, ServerService.GetToolHandler,
        hprior, hname₂]
    · intro _
      have hpref₂ :
          mapLookup (mapInsert (mapInsert s.toolHandlers name h)
            ("cortex_" ++ name) h) ("cortex_" ++ name) = some h := by
        rw [mapLookup_insert]
        simp
      simp [ServerService.RegisterToolHandler, ServerService.GetToolHandler,
        hprior, hpref₂]
    · intro h₀ hsome
      rw [hpref, hsome] at hnone
      simp at hnone

theorem registerToolHandler_resolves_both_names_witness :
    ServerService.GetToolHandler
        (ServerService.RegisterToolHandler (emptyService Nat) "echo" 1)
        "echo" = some 1 ∧
    ServerService.GetToolHandler
        (ServerService.RegisterToolHandler (emptyService Nat) "echo" 1)
        "cortex_echo" = some 1 :=
  ⟨(registerToolHandler_resolves_both_names (emptyService Nat) "echo" 1).1,
    (registerToolHandler_resolves_both_names
      (emptyService Nat) "echo" 1).2.1 rfl⟩

/-- C8: each collection mutation returns to its caller exactly the
repository operation's result — a term that does not involve the
notification sender, so broadcast failures are never propagated — and
unconditionally attempts the corresponding list-changed broadcast,
recording the sender's discarded outcome. -/
theorem mutations_return_repo_result_and_always_notify {H : Type}
    (s : ServerService H) (t : Tool) (res : Resource) (p : Prompt)
    (tname uri pname : String) :
    ((ServerService.AddTool s t).1 =
        (InMemoryToolRepository.AddTool s.toolRepo t).2 ∧
      (ServerService.AddTool s t).2.2 =
        [(⟨"tools/list/changed", []⟩,
          s.broadcast ⟨"tools/list/changed", []⟩)]) ∧
    ((ServerService.DeleteTool s tname).1 =
        (InMemoryToolRepository.DeleteTool s.toolRepo tname).2 ∧
      (ServerService.DeleteTool s tname).2.2 =
        [(⟨"tools/list/changed", []⟩,
          s.broadcast ⟨"tools/list/changed", []⟩)]) ∧
    ((ServerService.AddResource s res).1 =
        (InMemoryResourceRepository.AddResource s.resourceRepo res).2 ∧
      (ServerService.AddResource s res).2.2 =
        [(⟨"resources/list/changed", []⟩,
          s.broadcast ⟨"resources/list/changed", []⟩)]) ∧
    ((ServerService.DeleteResource s uri).1 =
        (InMemoryResourceRepository.DeleteResource s.resourceRepo uri).2 ∧
      (ServerService.DeleteResource s uri).2.2 =
        [(⟨"resources/list/changed", []⟩,
          s.broadcast ⟨"resources/list/changed", []⟩)]) ∧
    ((ServerService.AddPrompt s p).1 =
        (InMemoryPromptRepository.AddPrompt s.promptRepo p).2 ∧
      (ServerService.AddPrompt s p).2.2 =
        [(⟨"prompts/list/changed", []⟩,
          s.broadcast ⟨"prompts/list/changed", []⟩)]) ∧
    ((ServerService.DeletePrompt s pname).1 =
        (InMemoryPromptRepository.DeletePrompt s.promptRepo pname).2 ∧
      (ServerService.DeletePrompt s pname).2.2 =
        [(⟨"prompts/list/changed", []⟩,
          s.broadcast ⟨"prompts/list/changed", []⟩)]) :=
  ⟨⟨rfl, rfl⟩, ⟨rfl, rfl⟩, ⟨rfl, rfl⟩, ⟨rfl, rfl⟩, ⟨rfl, rfl⟩, ⟨rfl, rfl⟩⟩

theorem mutations_return_repo_result_and_always_notify_witness :
    (ServerService.AddTool (emptyService Nat) ⟨"echo", "", []⟩).1 = none ∧
    (ServerService.AddTool (emptyService Nat) ⟨"echo", "", []⟩).2.2 =
      [(⟨"tools/list/changed", []⟩, Except.ok ())] ∧
    (ServerService.DeleteTool (emptyService Nat) "missing").1.isSome = true ∧
    (ServerService.DeleteTool (emptyService Nat) "missing").2.2 =
      [(⟨"tools/list/changed", []⟩, Except.ok ())] := by
  have h := mutations_return_repo_result_and_always_notify
    (emptyService Nat) ⟨"echo", "", []⟩ ⟨"u", "r", "", ""⟩ ⟨"p", ""⟩
    "missing" "u" "p"
  exact ⟨h.1.1, h.1.2, by rw [h.2.1.1]; decide, h.2.1.2⟩

/-- C6: `tools/call` requires a non-empty string `name` in the params
object, answering `-32602` otherwise; the tool parameters handed to the
handler come from the `parameters` field when it is an object, else from
the `arguments` field when it is an object, else they are the empty map
and the call still proceeds. -/
theorem toolsCall_name_required_params_optional
    (fields : List (String × JValue)) (sid : String) :
    (∀ (service : ServerService ToolHandlerFunc) (v : JValue),
      v.asObj = none →
        handleToolsCall service sid v =
          .error ⟨InvalidParamsCode, "Invalid params", none⟩) ∧
    (∀ service : ServerService ToolHandlerFunc,
      stringField fields "name" = none →
        handleToolsCall service sid (.obj fields) =
          .error ⟨InvalidParamsCode,
            "Missing or invalid \x27name\x27 parameter", none⟩) ∧
    (∀ service : ServerService ToolHandlerFunc,
      stringField fields "name" = some "" →
        handleToolsCall service sid (.obj fields) =
          .error ⟨InvalidParamsCode,
            "Missing or invalid \x27name\x27 parameter", none⟩) ∧
    (∀ toolName, stringField fields "name" = some toolName → toolName ≠ "" →
      ∀ o, objectField fields "parameters" = some o →
        handleToolsCall (recorderService toolName) sid (.obj fields) =
          .ok (.obj o)) ∧
    (∀ toolName, stringField fields "name" = some toolName → toolName ≠ "" →
      objectField fields "parameters" = none →
      ∀ o, objectField fields "arguments" = some o →
        handleToolsCall (recorderService toolName) sid (.obj fields) =
          .ok (.obj o)) ∧
    (∀ toolName, stringField fields "name" = some toolName → toolName ≠ "" →
      objectField fields "parameters" = none →
      objectField fields "arguments" = none →
        handleToolsCall (recorderService toolName) sid (.obj fields) =
          .ok (.obj [])) := by
  have hget : ∀ toolName : String,
      ServerService.GetToolHandler (recorderService toolName) toolName =
        some (fun ps _ => .ok (.obj ps)) := by
    intro toolName
    simp [ServerService.GetToolHandler, recorderService, emptyService,
      mapLookup]
  refine ⟨?_, ?_, ?_, ?_, ?_, ?_⟩
  · intro service v hv
    simp [handleToolsCall, hv]
  · intro service hname
    simp [handleToolsCall, JValue.asObj, hname]
  · intro service hname
    simp [handleToolsCall, JValue.asObj, hname]
  · intro toolName hname hne o hparams
    simp [handleToolsCall, JValue.asObj, hname, hne, hparams, hget toolName]
  · intro toolName hname hne hnoparams o hargs
    simp [handleToolsCall, JValue.asObj, hname, hne, hnoparams, hargs,
      hget toolName]
  · intro toolName hname hne hnoparams hnoargs
    simp [handleToolsCall, JValue.asObj, hname, hne, hnoparams, hnoargs,
      hget toolName]

theorem toolsCall_name_required_params_optional_witness :
    handleToolsCall (recorderService "echo") "session-1"
        (.obj [("name", .str "echo"),
               ("parameters", .obj [("message", .str "hi")])]) =
      .ok (.obj [("message", .str "hi")]) ∧
    handleToolsCall (emptyService ToolHandlerFunc) "session-1"
        (.obj [("other", .num 3)]) =
      .error ⟨InvalidParamsCode,
        "Missing or invalid \x27name\x27 parameter", none⟩ :=
  ⟨(toolsCall_name_required_params_optional
      [("name", .str "echo"), ("parameters", .obj [("message", .str "hi")])]
      "session-1").2.2.2.1 "echo" rfl (by decide)
      [("message", .str "hi")] rfl,
    (toolsCall_name_required_params_optional [("other", .num 3)]
      "session-1").2.1 (emptyService ToolHandlerFunc) rfl⟩

/-- C7: a non-empty input line the parser rejects makes `Process` return
exactly the id-null `-32700` Parse error response, with a nil Go error, so
the caller loop continues. -/
theorem process_parse_error_response (parse : String → Option BaseMessage)
    (handlers : List (String × MethodHandler)) (message : String)
    (hne : trimSpace message ≠ "")
    (hfail : parse (trimSpace message) = none) :
    Process parse handlers message =
      (some (.obj [("jsonrpc", .str "2.0"), ("id", .null),
        ("error", .obj [("code", .num (-32700)),
                        ("message", .str "Parse error")])]), none) := by
  simp [Process, hne, hfail, createErrorResponse, ParseErrorCode,
    JSONRPCVersion]

theorem process_parse_error_response_witness :
    Process (fun _ => none) [] "\x7b\"jsonrpc\":\"2.0\"," =
      (some (.obj [("jsonrpc", .str "2.0"), ("id", .null),
        ("error", .obj [("code", .num (-32700)),
                        ("message", .str "Parse error")])]), none) :=
  process_parse_error_response (fun _ => none) [] "\x7b\"jsonrpc\":\"2.0\","
    (by decide) rfl

/-- C10: a parsed message whose method starts with `notifications/` and is
absent from the dispatch table yields no response and no error, even with
a non-null id, instead of a `-32601` method-not-found response. -/
theorem process_unknown_notification_silent
    (parse : String → Option BaseMessage)
    (handlers : List (String × MethodHandler)) (message : String)
    (m : BaseMessage)
    (hne : trimSpace message ≠ "")
    (hparse : parse (trimSpace message) = some m)
    (hpre : goStartsWith m.method "notifications/" = true)
    (hid : m.id.isNull = false)
    (hmiss : mapLookup handlers m.method = none) :
    Process parse handlers message = (none, none) := by
  simp [Process, hne, hparse, hpre, hid, hmiss]

theorem process_unknown_notification_silent_witness :
    Process (fun _ => some ⟨"2.0", .num 7, "notifications/progress", .null⟩)
        [] "x" = (none, none) :=
  process_unknown_notification_silent
    (fun _ => some ⟨"2.0", .num 7, "notifications/progress", .null⟩) [] "x"
    ⟨"2.0", .num 7, "notifications/progress", .null⟩
    (by decide) rfl (by decide) rfl rfl

end Cortex
